import Mathlib

/-!
Shallow embedding of the wordcab-transcribe core
(`src/wordcab_transcribe/utils.py`, `src/wordcab_transcribe/models.py`)
into Lean 4, together with theorems settling the specification claims.

Python floats are modelled by exact rationals (`ℚ`); Python strings by
Lean `String`; the filesystem by an explicit state structure; fallible
Python functions (those that `raise`) by `Except`.
-/

/-! ## Timestamp converter (`utils.py` lines 51-106) -/

/-- Error raised by `convert_timestamp` for an invalid conversion target
(Python `ValueError`). -/
inductive TimestampError where
  | invalidTarget : String → TimestampError
deriving DecidableEq, Repr

/-- Python `int()` truncation toward zero, on exact rationals. -/
def pyInt (x : ℚ) : ℤ :=
  if x < 0 then -⌊-x⌋ else ⌊x⌋

/-- Decimal rendering of a natural number zero-padded to width `w`,
Python `f"{n:0w}"` for `n ≥ 0`. -/
def natPad (w : Nat) (n : Nat) : String :=
  let s := Nat.repr n
  if s.length < w then String.mk (List.replicate (w - s.length) '0') ++ s else s

/-- Python `f"{z:0w}"` for an `int` of either sign (sign precedes the
zero padding). -/
def intPad (w : Nat) (z : ℤ) : String :=
  if z < 0 then
    let s := Nat.repr z.natAbs
    if s.length + 1 < w then
      "-" ++ String.mk (List.replicate (w - 1 - s.length) '0') ++ s
    else "-" ++ s
  else natPad w z.toNat

/-- `_convert_ms_to_hms` (`utils.py` lines 77-93).
`divmod(a, b)` on floats is `(⌊a/b⌋, a - b*⌊a/b⌋)`; `seconds % 1` is the
fractional part; `int()` truncates toward zero; `math.floor` floors. -/
def _convert_ms_to_hms (timestamp : ℚ) : String :=
  let hours : ℤ := ⌊timestamp / 1000 / 3600⌋
  let remainder : ℚ := timestamp / 1000 - 3600 * hours
  let minutes : ℤ := ⌊remainder / 60⌋
  let seconds : ℚ := remainder - 60 * minutes
  let milliseconds : ℤ := ⌊(seconds - ⌊seconds⌋) * 1000⌋
  intPad 2 hours ++ ":" ++ intPad 2 minutes ++ ":" ++ intPad 2 (pyInt seconds)
    ++ "." ++ intPad 3 milliseconds

/-- `_convert_ms_to_s` (`utils.py` lines 96-106). -/
def _convert_ms_to_s (timestamp : ℚ) : ℚ :=
  timestamp / 1000

/-- `convert_timestamp` (`utils.py` lines 51-74): dispatch on the target
unit; unknown targets raise `ValueError`. -/
def convert_timestamp (timestamp : ℚ) (target : String) :
    Except TimestampError (String ⊕ ℚ) :=
  if target = "ms" then .ok (.inr timestamp)
  else if target = "hms" then .ok (.inl (_convert_ms_to_hms timestamp))
  else if target = "s" then .ok (.inr (_convert_ms_to_s timestamp))
  else .error (.invalidTarget target)

/-- `get_segment_timestamp_anchor` (`utils.py` lines 294-300). -/
def get_segment_timestamp_anchor (start endT : ℚ) (option : String := "start") : ℚ :=
  if option = "end" then endT
  else if option = "mid" then (start + endT) / 2
  else start

/-! ## Text formatter (`utils.py` lines 232-267) -/

/-- ASCII whitespace characters: those matched by Python's regex `\s`
and stripped by `str.strip()`. -/
def pythonWs (c : Char) : Bool :=
  c = ' ' || c = '\t' || c = '\n' || c = '\r' || c = '\x0b' || c = '\x0c'

/-- Python `str.strip()`: drop whitespace from both ends. -/
def pyStrip (s : String) : String :=
  String.mk (((s.data.dropWhile pythonWs).reverse.dropWhile pythonWs).reverse)

/-- Python `str.replace(pat, repl)` on character lists: scan left to
right, replacing leftmost non-overlapping occurrences of `pat`.  The
`fuel` argument only bounds the recursion; initialised to the length of
the list it never runs out, because every step consumes at least one
character. -/
def listReplaceAux (pat repl : List Char) : Nat → List Char → List Char
  | 0, cs => cs
  | _ + 1, [] => []
  | fuel + 1, c :: rest =>
    if pat ≠ [] ∧ pat.isPrefixOf (c :: rest) then
      repl ++ listReplaceAux pat repl fuel ((c :: rest).drop pat.length)
    else c :: listReplaceAux pat repl fuel rest

/-- Python `str.replace` on strings. -/
def pyReplace (s pat repl : String) : String :=
  String.mk (listReplaceAux pat.data repl.data s.data.length s.data)

/-- `re.sub("/s+", " ", text)`: replace each maximal run consisting of a
slash followed by one or more letters `s` with a single space.  NOTE the
pattern in the source is literally `/s+` (slash, then `s`), not `\s+`.
The boolean flag records that the scanner is still inside the `s+` part
of a match. -/
def subSlashS : Bool → List Char → List Char
  | _, [] => []
  | true, 's' :: rest => subSlashS true rest
  | _, '/' :: 's' :: rest => ' ' :: subSlashS true rest
  | _, c :: rest => c :: subSlashS false rest

/-- `is_empty_string` (`utils.py` lines 232-246): remove all periods,
remove all whitespace (`re.sub(r"\s+", "", text)`), and return `false`
iff the stripped remainder is non-empty. -/
def is_empty_string (text : String) : Bool :=
  let t1 := pyReplace text "." ""
  let t2 := String.mk (t1.data.filter (fun c => ! pythonWs c))
  if pyStrip t2 ≠ "" then false else true

/-- `format_punct` (`utils.py` lines 249-267): remove literal `"..."`,
close the fixed space-before-punctuation patterns, apply
`re.sub("/s+", " ", text)` (the pattern of the source, `/s+`, not
`\s+`), and strip the ends. -/
def format_punct (text : String) : String :=
  let t1 := pyReplace text "..." ""
  let t2 := pyReplace t1 " ?" "?"
  let t3 := pyReplace t2 " !" "!"
  let t4 := pyReplace t3 " ." "."
  let t5 := pyReplace t4 " ," ","
  let t6 := pyReplace t5 " :" ":"
  let t7 := pyReplace t6 " ;" ";"
  let t8 := String.mk (subSlashS false t7.data)
  pyStrip t8

/-! ## Request models (`models.py`) -/

/-- `DataRequest` (`models.py` lines 145-157): the request object for the
audio file endpoint. -/
structure DataRequest where
  alignment : Bool
  source_lang : String
  timestamps : String
deriving DecidableEq, Repr

/-- Construction of a `DataRequest`: the pydantic validator
`validate_timestamps_values` rejects any `timestamps` value outside
`["hms", "ms", "s"]` with a `ValueError` at construction time. -/
def mkDataRequest (alignment : Bool) (source_lang timestamps : String) :
    Except String DataRequest :=
  if timestamps ∈ (["hms", "ms", "s"] : List String) then
    .ok { alignment := alignment, source_lang := source_lang, timestamps := timestamps }
  else .error "timestamps must be one of 'hms', 'ms', 's'."

/-- `CortexPayload` (`models.py` lines 70-94): the request object for the
Cortex endpoint. -/
structure CortexPayload where
  url_type : String
  url : String
  api_key : String
  alignment : Bool
  source_lang : String
  timestamps : String
  job_name : Option String
  ping : Bool
deriving DecidableEq, Repr

/-- Construction of a `CortexPayload`: the validators
`validate_timestamps_values` and `validate_url_type` reject a
`timestamps` value outside `["hms", "ms", "s"]` and a `url_type` outside
`["audio_url", "youtube"]` at construction time. -/
def mkCortexPayload (url_type url api_key : String) (alignment : Bool)
    (source_lang timestamps : String) (job_name : Option String) (ping : Bool) :
    Except String CortexPayload :=
  if url_type ∉ (["audio_url", "youtube"] : List String) then
    .error "Url must be one of 'audio_url', 'youtube'."
  else if timestamps ∉ (["hms", "ms", "s"] : List String) then
    .error "timestamps must be one of 'hms', 'ms', 's'."
  else
    .ok { url_type := url_type, url := url, api_key := api_key,
          alignment := alignment, source_lang := source_lang,
          timestamps := timestamps, job_name := job_name, ping := ping }

/-! ## Filesystem model -/

/-- A filesystem state: the set of directories known to exist and a map
from file paths to contents, both as lists. -/
structure FS where
  dirs : List String
  files : List (String × String)
deriving DecidableEq, Repr

/-- `Path.exists()`: the path is a known directory or a file. -/
def FS.pathExists (fs : FS) (p : String) : Bool :=
  fs.dirs.contains p || fs.files.any (fun kv => kv.1 == p)

/-- `open(p, "w")` followed by writing `c`: replaces any previous file
at `p`. -/
def FS.writeFile (fs : FS) (p c : String) : FS :=
  { fs with files := (p, c) :: fs.files.filter (fun kv => kv.1 != p) }

/-- Reading a file. -/
def FS.readFile (fs : FS) (p : String) : Option String :=
  (fs.files.find? (fun kv => kv.1 == p)).map (fun kv => kv.2)

/-- The proper ancestor paths of `p`, shortest first. -/
def parentPaths (p : String) : List String :=
  let comps := p.splitOn "/"
  ((List.range comps.length).drop 1).map
    (fun k => String.intercalate "/" (comps.take k))

/-- `Path.mkdir(parents=True, exist_ok=True)`: record the directory and
all its ancestors as existing. -/
def FS.mkdirParents (fs : FS) (p : String) : FS :=
  { fs with dirs := p :: (parentPaths p ++ fs.dirs) }

/-! ## Audio acquirer (`utils.py` lines 175-215) -/

/-- Error raised by `download_audio_file` on a non-200 response. -/
inductive DownloadError where
  | downloadFailed : Nat → DownloadError
deriving DecidableEq, Repr

/-- The HTTP response for the requested URL, as far as
`download_audio_file` observes it. -/
structure HttpResponse where
  status : Nat
  contentType : String
  body : String
deriving DecidableEq, Repr

/-- `download_audio_file` (`utils.py` lines 175-215), with the HTTP
exchange abstracted into the received response and
`mimetypes.guess_extension` into an oracle from content types to
extensions.  On a 200 status the body is streamed to
`filename + extension`; on any other status the function raises before
opening any file. -/
def download_audio_file (guessExtension : String → String)
    (resp : HttpResponse) (filename : String) (fs : FS) :
    Except DownloadError String × FS :=
  if resp.status = 200 then
    let fname := filename ++ guessExtension resp.contentType
    (.ok fname, fs.writeFile fname resp.body)
  else (.error (.downloadFailed resp.status), fs)

/-! ## Audio normalizer (`utils.py` lines 109-149) -/

/-- Result of `run_subprocess` (`utils.py` lines 33-48): exit code,
stdout, stderr. -/
structure ProcResult where
  returncode : Int
  stdout : String
  stderr : String
deriving DecidableEq, Repr

/-- Errors raised by `convert_file_to_wav`: `FileNotFoundError` for a
missing input, and the generic conversion `Exception` carrying the
captured stderr text. -/
inductive ConvError where
  | fileNotFound : String → ConvError
  | conversionFailed : String → ConvError
deriving DecidableEq, Repr

/-- The last component of a path (after the final slash),
`PurePath.name`. -/
def pathNameChars (p : String) : List Char :=
  (p.data.reverse.takeWhile (fun c => c != '/')).reverse

/-- `PurePath.with_suffix`: replace the extension of the final path
component (the part from the last dot `.` onward, provided that dot is
neither the first nor the last character of the component) with
`suffix`; if the component has no extension, append `suffix`. -/
def withSuffix (p : String) (suffix : String) : String :=
  let name := pathNameChars p
  let dirPrefix := p.data.take (p.data.length - name.length)
  let k := (name.reverse.takeWhile (fun c => c != '.')).length
  if 0 < k ∧ k + 1 < name.length then
    String.mk (dirPrefix ++ name.take (name.length - (k + 1)) ++ suffix.data)
  else
    String.mk (dirPrefix ++ name ++ suffix.data)

/-- The fixed `ffmpeg` command line built by `convert_file_to_wav`:
force mono, 16 kHz, signed 16-bit PCM, overwrite the destination. -/
def ffmpegCmd (filepath newFilepath : String) : List String :=
  ["ffmpeg", "-i", filepath, "-vn", "-acodec", "pcm_s16le", "-ar", "16000",
   "-ac", "1", "-y", newFilepath]

/-- `convert_file_to_wav` (`utils.py` lines 109-149), with the existence
check and the external `ffmpeg` invocation abstracted into oracles.  The
second component of the result records the external commands spawned. -/
def convert_file_to_wav (pathExists : String → Bool)
    (runner : List String → ProcResult) (filepath : String) :
    Except ConvError String × List (List String) :=
  if pathExists filepath then
    let newFilepath := withSuffix filepath ".wav"
    let result := runner (ffmpegCmd filepath newFilepath)
    if result.returncode ≠ 0 then
      (.error (.conversionFailed result.stderr), [ffmpegCmd filepath newFilepath])
    else (.ok newFilepath, [ffmpegCmd filepath newFilepath])
  else (.error (.fileNotFound filepath), [])

/-! ## Diarization config builder (`utils.py` lines 310-360) -/

/-- `Path(__file__).parent.parent`: the package root directory that
`load_nemo_config` resolves its relative paths against. -/
def basePath : String := "/app/wordcab-transcribe"

/-- `Path(a) / b`: pathlib drops `a` when `b` is absolute (starts with
a slash). -/
def pathJoin (a b : String) : String :=
  if b.data.head? = some '/' then b else a ++ "/" ++ b

/-- The fixed manifest record of `load_nemo_config` (`utils.py` lines
337-345), exactly as `json.dump` serialises it: the fixed scalar fields
plus the canonical audio file path `/app/temp_outputs/mono_file.wav`. -/
def manifestMeta : String :=
  "\x7b\"audio_filepath\": \"/app/temp_outputs/mono_file.wav\", \"offset\": 0, \"duration\": null, \"label\": \"infer\", \"text\": \"-\", \"rttm_filepath\": null, \"uem_filepath\": null\x7d"

/-- The diarization configuration: the loaded domain profile plus the
three fields `load_nemo_config` overrides. -/
structure NemoConfig where
  raw : String
  numWorkers : Nat
  manifestFilepath : String
  outDir : String
deriving DecidableEq, Repr

/-- `OmegaConf.load`: the parsed profile is modelled by its raw text;
the fields overridden later start at placeholder values (they are never
observed before being overwritten). -/
def loadCfg (content : String) : NemoConfig :=
  { raw := content, numWorkers := 1, manifestFilepath := "", outDir := "" }

/-- The profile asset path
`Path(__file__).parent.parent / "config" / "nemo" / f"diar_infer_{domain_type}.yaml"`. -/
def cfgPath (domain_type : String) : String :=
  basePath ++ "/config/nemo/diar_infer_" ++ domain_type ++ ".yaml"

/-- `load_nemo_config` (`utils.py` lines 310-360): read the profile
asset, create the storage directory if absent, overwrite the one-line
manifest, create the output directory if absent, and return the profile
with `num_workers`, `manifest_filepath` and `out_dir` overridden. -/
def load_nemo_config (domain_type storage_path output_path : String) (fs : FS) :
    Except String (NemoConfig × FS) :=
  match fs.readFile (cfgPath domain_type) with
  | none => .error ("No such file or directory: " ++ cfgPath domain_type)
  | some content =>
    let cfg := loadCfg content
    let storageP := pathJoin basePath storage_path
    let fs1 := if fs.pathExists storageP then fs else fs.mkdirParents storageP
    let manifestPath := pathJoin storageP "infer_manifest.json"
    let fs2 := fs1.writeFile manifestPath (manifestMeta ++ "\n")
    let outputP := pathJoin basePath output_path
    let fs3 := if fs2.pathExists outputP then fs2 else fs2.mkdirParents outputP
    let cfg2 : NemoConfig :=
      { raw := cfg.raw
        numWorkers := 0
        manifestFilepath := manifestPath
        outDir := outputP }
    .ok (cfg2, fs3)

/-! ## Theorems for claims C4, C9, C10 -/

lemma exceptIsOk_ok {ε α : Type} (a : α) : (Except.ok a : Except ε α).isOk = true := rfl

lemma exceptIsOk_error {ε α : Type} (e : ε) :
    (Except.error e : Except ε α).isOk = false := rfl

/-- C4: `convert_timestamp` fails with an `InvalidTimestampUnit` error
exactly when the unit is not one of "ms", "s", "hms"; for the three
valid units it never fails, returning the timestamp unchanged for "ms"
and `t / 1000` for "s". -/
theorem convert_timestamp_unit_dispatch (t : ℚ) (target : String) :
    ((convert_timestamp t target).isOk ↔
      (target = "ms" ∨ target = "s" ∨ target = "hms")) ∧
    convert_timestamp t "ms" = .ok (.inr t) ∧
    convert_timestamp t "s" = .ok (.inr (t / 1000)) ∧
    (target ≠ "ms" → target ≠ "s" → target ≠ "hms" →
      convert_timestamp t target = .error (.invalidTarget target)) := by
  refine ⟨?_, by simp [convert_timestamp], ?_, ?_⟩
  · constructor
    · intro h
      by_contra hno
      push_neg at hno
      obtain ⟨h1, h2, h3⟩ := hno
      simp [convert_timestamp, h1, h2, h3, exceptIsOk_error] at h
    · rintro (h | h | h) <;> subst h <;>
        simp [convert_timestamp, exceptIsOk_ok]
  · simp [convert_timestamp, _convert_ms_to_s]
  · intro h1 h2 h3
    simp [convert_timestamp, h1, h2, h3]

/-- Witness for C4 at the concrete unit "bogus" and timestamp 5. -/
theorem convert_timestamp_unit_dispatch_witness :
    convert_timestamp 5 "bogus" = .error (.invalidTarget "bogus") :=
  (convert_timestamp_unit_dispatch 5 "bogus").2.2.2
    (by decide) (by decide) (by decide)

/-- C9: `DataRequest` and `CortexPayload` construction rejects any
`timestamps` value outside the set {"s", "ms", "hms"} (and any
`url_type` outside {"audio_url", "youtube"}) at construction time, and
accepts the valid values unchanged. -/
theorem request_models_validate_at_construction (al : Bool) (sl ts ut url key : String)
    (jn : Option String) (ping : Bool) :
    ((mkDataRequest al sl ts).isOk ↔ (ts = "hms" ∨ ts = "ms" ∨ ts = "s")) ∧
    (∀ r, mkDataRequest al sl ts = .ok r →
      r.timestamps = ts ∧ r.alignment = al ∧ r.source_lang = sl) ∧
    ((mkCortexPayload ut url key al sl ts jn ping).isOk ↔
      ((ut = "audio_url" ∨ ut = "youtube") ∧ (ts = "hms" ∨ ts = "ms" ∨ ts = "s"))) ∧
    (∀ p, mkCortexPayload ut url key al sl ts jn ping = .ok p →
      p.timestamps = ts ∧ p.url_type = ut) := by
  refine ⟨?_, ?_, ?_, ?_⟩
  · unfold mkDataRequest
    split <;> simp_all [exceptIsOk_ok, exceptIsOk_error]
  · intro r hr
    unfold mkDataRequest at hr
    split at hr
    · cases hr
      exact ⟨rfl, rfl, rfl⟩
    · cases hr
  · unfold mkCortexPayload
    split
    · simp_all [exceptIsOk_ok, exceptIsOk_error]
    · split <;> simp_all [exceptIsOk_ok, exceptIsOk_error]
      tauto
  · intro p hp
    unfold mkCortexPayload at hp
    split at hp
    · cases hp
    · split at hp
      · cases hp
      · cases hp
        exact ⟨rfl, rfl⟩

/-- Witness for C9: the valid value "s" is accepted, and the invalid
value "minutes" is rejected, concretely. -/
theorem request_models_validate_at_construction_witness :
    (mkDataRequest false "en" "s").isOk = true ∧
    (mkCortexPayload "audio_url" "u" "k" false "en" "minutes" none false).isOk
      = false := by
  constructor
  · exact (request_models_validate_at_construction false "en" "s" "audio_url" "u" "k"
      none false).1.mpr (Or.inr (Or.inr rfl))
  · rcases hh : (mkCortexPayload "audio_url" "u" "k" false "en" "minutes"
      none false).isOk
    · rfl
    · have hmem := ((request_models_validate_at_construction false "en" "minutes"
        "audio_url" "u" "k" none false).2.2.1.mp hh).2
      exact absurd hmem (by decide)

/-- C10: `get_segment_timestamp_anchor` returns `end` for option "end",
the midpoint for option "mid", and `start` for every other option value,
silently, without raising an error. -/
theorem get_segment_timestamp_anchor_cases (s e : ℚ) (option : String) :
    get_segment_timestamp_anchor s e "end" = e ∧
    get_segment_timestamp_anchor s e "mid" = (s + e) / 2 ∧
    (option ≠ "end" → option ≠ "mid" → get_segment_timestamp_anchor s e option = s) := by
  refine ⟨by simp [get_segment_timestamp_anchor], ?_, ?_⟩
  · simp [get_segment_timestamp_anchor]
  · intro h1 h2
    simp [get_segment_timestamp_anchor, h1, h2]

/-- Witness for C10 at the concrete unrecognized option "bogus". -/
theorem get_segment_timestamp_anchor_cases_witness :
    get_segment_timestamp_anchor 1 3 "bogus" = 1 :=
  (get_segment_timestamp_anchor_cases 1 3 "bogus").2.2 (by decide) (by decide)

/-! ## Theorems for claims C1 and C7 -/

lemma listReplaceAux_dot :
    ∀ (fuel : Nat) (cs : List Char), cs.length ≤ fuel →
      listReplaceAux ['.'] [] fuel cs = cs.filter (fun c => c != '.')
  | 0, [], _ => rfl
  | 0, _ :: _, h => absurd h (by simp)
  | _ + 1, [], _ => rfl
  | fuel + 1, c :: rest, h => by
    have hrec := listReplaceAux_dot fuel rest (by simp at h; omega)
    by_cases hc : c = '.'
    · subst hc
      simp [listReplaceAux, List.isPrefixOf, hrec]
    · have hc' : ¬('.' = c) := fun hx => hc hx.symm
      simp [listReplaceAux, List.isPrefixOf, hc, hc', hrec]

lemma pyReplace_dot_data (s : String) :
    (pyReplace s "." "").data = s.data.filter (fun c => c != '.') := by
  show listReplaceAux ['.'] [] s.data.length s.data = _
  exact listReplaceAux_dot s.data.length s.data (le_refl _)

lemma dropWhile_no_ws (l : List Char) (h : ∀ c ∈ l, pythonWs c = false) :
    l.dropWhile pythonWs = l := by
  cases l with
  | nil => rfl
  | cons c rest =>
    rw [List.dropWhile_cons]
    simp [h c (List.mem_cons_self c rest)]

lemma pyStrip_no_ws (l : List Char) (h : ∀ c ∈ l, pythonWs c = false) :
    pyStrip (String.mk l) = String.mk l := by
  unfold pyStrip
  show String.mk (((l.dropWhile pythonWs).reverse.dropWhile pythonWs).reverse) = _
  rw [dropWhile_no_ws l h,
    dropWhile_no_ws l.reverse (fun c hc => h c (List.mem_reverse.mp hc)),
    List.reverse_reverse]

/-- C7: `is_empty_string` returns true iff nothing remains of the text
after stripping all periods and all whitespace, i.e. iff every character
is a period or whitespace; in particular it returns true on `"...   "`
and false on `"Hi."`. -/
theorem is_empty_string_iff_blank (s : String) :
    (is_empty_string s = true ↔ ∀ c ∈ s.data, c = '.' ∨ pythonWs c = true) ∧
    is_empty_string "...   " = true ∧
    is_empty_string "Hi." = false := by
  refine ⟨?_, by decide, by decide⟩
  have hdata : (pyReplace s "." "").data.filter (fun c => ! pythonWs c)
      = s.data.filter (fun c => (c != '.') && ! pythonWs c) := by
    rw [pyReplace_dot_data, List.filter_filter]
    exact List.filter_congr (fun a _ => Bool.and_comm _ _)
  have hno : ∀ c ∈ s.data.filter (fun c => (c != '.') && ! pythonWs c),
      pythonWs c = false := by
    intro c hc
    have hmem := List.of_mem_filter hc
    simp only [Bool.and_eq_true, Bool.not_eq_true'] at hmem
    exact hmem.2
  show (if pyStrip (String.mk
      ((pyReplace s "." "").data.filter (fun c => ! pythonWs c))) ≠ "" then false
    else true) = true ↔ _
  rw [hdata, pyStrip_no_ws _ hno]
  have hmkeq : ∀ l : List Char, (String.mk l = "") ↔ l = [] := by
    intro l
    constructor
    · intro hl
      exact congrArg String.data hl
    · intro hl
      rw [hl]
  by_cases hemp : s.data.filter (fun c => (c != '.') && ! pythonWs c) = []
  · rw [if_neg (by simp [hmkeq, hemp])]
    simp only [true_iff]
    intro c hc
    have hnc := List.filter_eq_nil_iff.mp hemp c hc
    simp only [Bool.and_eq_true, Bool.not_eq_true', bne_iff_ne, ne_eq, not_and] at hnc
    by_cases hdot : c = '.'
    · exact Or.inl hdot
    · right
      have := hnc hdot
      simp only [Bool.not_eq_false] at this
      exact this
  · rw [if_pos (by simp [hmkeq, hemp])]
    simp only [Bool.false_eq_true, false_iff, not_forall]
    obtain ⟨c, hc⟩ := List.exists_mem_of_ne_nil _ hemp
    have hmem := List.of_mem_filter hc
    simp only [Bool.and_eq_true, Bool.not_eq_true', bne_iff_ne, ne_eq] at hmem
    exact ⟨c, List.mem_of_mem_filter hc, by
      push_neg
      exact ⟨hmem.1, by simp [hmem.2]⟩⟩

/-- C1: evaluation of `format_punct` at the specification's own example.
The code returns `"Hello  world!"` with a double space, not the
`"Hello world!"` demanded by the spec, because the regex pattern in the
source is `/s+` (slash then letter s), not `\s+`, so runs of whitespace
are never collapsed; `"a  b"` likewise passes through unchanged. -/
theorem format_punct_example_double_space :
    format_punct "Hello ... world !" = "Hello  world!" ∧
    format_punct "Hello ... world !" ≠ "Hello world!" ∧
    format_punct "a  b" = "a  b" :=
  ⟨by decide, by decide, by decide⟩

/-! ## Filesystem lemmas -/

lemma filter_self_idem (l : List (String × String)) (f : (String × String) → Bool) :
    (l.filter f).filter f = l.filter f := by
  rw [List.filter_filter]
  exact List.filter_congr (fun a _ => Bool.and_self _)

lemma find?_keyEq_filter_ne (l : List (String × String)) (p q : String) (h : q ≠ p) :
    (l.filter (fun kv => kv.1 != p)).find? (fun kv => kv.1 == q)
      = l.find? (fun kv => kv.1 == q) := by
  induction l with
  | nil => rfl
  | cons a t ih =>
    by_cases hq : a.1 = q
    · rw [List.filter_cons_of_pos (by simp [hq, h]),
        List.find?_cons_of_pos _ (by simp [hq]),
        List.find?_cons_of_pos _ (by simp [hq])]
    · by_cases hp : a.1 = p
      · rw [List.filter_cons_of_neg (by simp [hp]),
          List.find?_cons_of_neg _ (by simp [hq])]
        exact ih
      · rw [List.filter_cons_of_pos (by simp [hp]),
          List.find?_cons_of_neg _ (by simp [hq]),
          List.find?_cons_of_neg _ (by simp [hq])]
        exact ih

lemma FS.readFile_writeFile_self (fs : FS) (p c : String) :
    (fs.writeFile p c).readFile p = some c := by
  unfold FS.writeFile FS.readFile
  rw [List.find?_cons_of_pos _ (by simp)]
  rfl

lemma FS.readFile_writeFile_ne (fs : FS) (p q c : String) (h : q ≠ p) :
    (fs.writeFile p c).readFile q = fs.readFile q := by
  unfold FS.writeFile FS.readFile
  rw [List.find?_cons_of_neg _ (by simpa using Ne.symm h)]
  rw [find?_keyEq_filter_ne fs.files p q h]

lemma FS.readFile_mkdirParents (fs : FS) (p q : String) :
    (fs.mkdirParents q).readFile p = fs.readFile p := rfl

lemma FS.pathExists_writeFile_mono (fs : FS) (p q c : String)
    (h : fs.pathExists q = true) : (fs.writeFile p c).pathExists q = true := by
  unfold FS.pathExists at h
  unfold FS.pathExists FS.writeFile
  simp only [Bool.or_eq_true, List.any_eq_true] at h ⊢
  rcases h with h | ⟨kv, hkv, hkvq⟩
  · exact Or.inl h
  · right
    have hq : kv.1 = q := by simpa using hkvq
    by_cases hqp : kv.1 = p
    · exact ⟨(p, c), List.mem_cons_self _ _, by simp [← hqp, hq]⟩
    · exact ⟨kv, List.mem_cons_of_mem _ (List.mem_filter.mpr ⟨hkv, by simp [hqp]⟩),
        hkvq⟩

lemma FS.pathExists_mkdirParents_mono (fs : FS) (p q : String)
    (h : fs.pathExists q = true) : (fs.mkdirParents p).pathExists q = true := by
  unfold FS.pathExists at h
  unfold FS.pathExists FS.mkdirParents
  simp only [Bool.or_eq_true] at h ⊢
  rcases h with h | h
  · left
    simp only [List.contains_iff_exists_mem_beq] at h ⊢
    obtain ⟨a, ha, hab⟩ := h
    exact ⟨a, by simp [List.mem_cons, List.mem_append, ha], hab⟩
  · exact Or.inr h

lemma FS.pathExists_mkdirParents_self (fs : FS) (p : String) :
    (fs.mkdirParents p).pathExists p = true := by
  unfold FS.pathExists FS.mkdirParents
  simp

lemma FS.writeFile_writeFile (fs : FS) (p c : String) :
    (fs.writeFile p c).writeFile p c = fs.writeFile p c := by
  obtain ⟨ds, lfs⟩ := fs
  show FS.mk ds ((p, c) :: (((p, c) :: lfs.filter (fun kv => kv.1 != p)).filter
      (fun kv => kv.1 != p)))
    = FS.mk ds ((p, c) :: lfs.filter (fun kv => kv.1 != p))
  rw [List.filter_cons_of_neg (by simp), filter_self_idem]

lemma FS.writeFile_after_mkdirParents (fs : FS) (p c q : String) :
    ((fs.writeFile p c).mkdirParents q).writeFile p c
      = (fs.writeFile p c).mkdirParents q := by
  obtain ⟨ds, lfs⟩ := fs
  show FS.mk (q :: (parentPaths q ++ ds))
      ((p, c) :: (((p, c) :: lfs.filter (fun kv => kv.1 != p)).filter
        (fun kv => kv.1 != p)))
    = FS.mk (q :: (parentPaths q ++ ds)) ((p, c) :: lfs.filter (fun kv => kv.1 != p))
  rw [List.filter_cons_of_neg (by simp), filter_self_idem]

lemma FS.writeFile_unique (fs : FS) (p c : String) :
    ((fs.writeFile p c).files.filter (fun kv => kv.1 == p)).length = 1 := by
  unfold FS.writeFile
  show (((p, c) :: fs.files.filter (fun kv => kv.1 != p)).filter
    (fun kv => kv.1 == p)).length = 1
  rw [List.filter_cons_of_pos (by simp)]
  have hnil : (fs.files.filter (fun kv => kv.1 != p)).filter
      (fun kv => kv.1 == p) = [] := by
    rw [List.filter_filter]
    rw [List.filter_eq_nil_iff]
    intro kv _
    by_cases hk : kv.1 = p <;> simp [hk]
  rw [hnil]
  rfl

lemma pathJoin_manifest (a : String) :
    pathJoin a "infer_manifest.json" = a ++ "/infer_manifest.json" := by
  unfold pathJoin
  rw [if_neg (by decide), String.append_assoc]
  exact congrArg (fun t => a ++ t) (by decide)

lemma cfgPath_ne_manifest (d a : String) :
    cfgPath d ≠ a ++ "/infer_manifest.json" := by
  intro heq
  have h1 : (cfgPath d).data.reverse.head? = some 'l' := by
    unfold cfgPath basePath
    rw [String.data_append, List.reverse_append]
    rfl
  have h2 : (a ++ "/infer_manifest.json").data.reverse.head? = some 'n' := by
    rw [String.data_append, List.reverse_append]
    rfl
  rw [heq, h2] at h1
  exact absurd (Option.some.inj h1) (by decide)

/-! ## Theorems for claims C5 and C6 -/

/-- C5: on any non-200 HTTP response, `download_audio_file` fails with
`DownloadFailed` carrying that status code and performs no filesystem
write — the returned filesystem state is the input state. -/
theorem download_audio_file_non_200 (guessExtension : String → String)
    (resp : HttpResponse) (filename : String) (fs : FS)
    (h : resp.status ≠ 200) :
    download_audio_file guessExtension resp filename fs
      = (.error (.downloadFailed resp.status), fs) := by
  simp [download_audio_file, h]

/-- Witness for C5 at a concrete simulated 404 response. -/
theorem download_audio_file_non_200_witness :
    download_audio_file (fun _ => ".wav")
        { status := 404, contentType := "audio/mpeg", body := "payload" }
        "job42" { dirs := [], files := [] }
      = (.error (.downloadFailed 404), { dirs := [], files := [] }) :=
  download_audio_file_non_200 (fun _ => ".wav")
    { status := 404, contentType := "audio/mpeg", body := "payload" }
    "job42" { dirs := [], files := [] } (by decide)

/-- C6: `convert_file_to_wav` on a missing input fails with
`FileNotFound` and spawns no external process; on an existing input it
runs the transcoder once, returns the input path with its extension
replaced by `.wav` when the exit code is zero, and surfaces a non-zero
exit code as `ConversionFailed` carrying the captured stderr text. -/
theorem convert_file_to_wav_spec (pathExists : String → Bool)
    (runner : List String → ProcResult) (filepath : String) :
    (pathExists filepath = false →
      convert_file_to_wav pathExists runner filepath
        = (.error (.fileNotFound filepath), [])) ∧
    (pathExists filepath = true →
      (runner (ffmpegCmd filepath (withSuffix filepath ".wav"))).returncode = 0 →
      convert_file_to_wav pathExists runner filepath
        = (.ok (withSuffix filepath ".wav"),
           [ffmpegCmd filepath (withSuffix filepath ".wav")])) ∧
    (pathExists filepath = true →
      (runner (ffmpegCmd filepath (withSuffix filepath ".wav"))).returncode ≠ 0 →
      convert_file_to_wav pathExists runner filepath
        = (.error (.conversionFailed
             (runner (ffmpegCmd filepath (withSuffix filepath ".wav"))).stderr),
           [ffmpegCmd filepath (withSuffix filepath ".wav")])) := by
  refine ⟨?_, ?_, ?_⟩
  · intro h
    simp [convert_file_to_wav, h]
  · intro h hrc
    simp [convert_file_to_wav, h, hrc]
  · intro h hrc
    simp [convert_file_to_wav, h, hrc]

/-- Witness for C6: a concrete successful conversion of
`/tmp/audio.mp3` (output path `/tmp/audio.wav`) and a concrete missing
input, with no spawned process in the latter case. -/
theorem convert_file_to_wav_spec_witness :
    convert_file_to_wav (fun p => p == "/tmp/audio.mp3")
        (fun _ => { returncode := 0, stdout := "", stderr := "" }) "/tmp/audio.mp3"
      = (.ok "/tmp/audio.wav", [ffmpegCmd "/tmp/audio.mp3" "/tmp/audio.wav"]) ∧
    convert_file_to_wav (fun p => p == "/tmp/audio.mp3")
        (fun _ => { returncode := 0, stdout := "", stderr := "" }) "/tmp/missing.ogg"
      = (.error (.fileNotFound "/tmp/missing.ogg"), []) := by
  constructor
  · have h := (convert_file_to_wav_spec (fun p => p == "/tmp/audio.mp3")
      (fun _ => { returncode := 0, stdout := "", stderr := "" })
      "/tmp/audio.mp3").2.1 (by decide) rfl
    rw [h]
    have hsuf : withSuffix "/tmp/audio.mp3" ".wav" = "/tmp/audio.wav" := by decide
    rw [hsuf]
  · exact (convert_file_to_wav_spec (fun p => p == "/tmp/audio.mp3")
      (fun _ => { returncode := 0, stdout := "", stderr := "" })
      "/tmp/missing.ogg").1 (by decide)

/-! ## Theorems for claims C2 and C8 -/

lemma FS.mkdirParents_files (fs : FS) (q : String) :
    (fs.mkdirParents q).files = fs.files := rfl

/-- C2: `load_nemo_config` writes exactly one single-line JSON manifest
record — the fixed scalar fields plus the canonical audio file path
`/app/temp_outputs/mono_file.wav` — terminated by a newline, to
`storageDir/infer_manifest.json`, overwriting any prior manifest at that
path (the content below holds for every prior filesystem state). -/
theorem load_nemo_config_manifest (d s o content : String) (fs : FS)
    (h : fs.readFile (cfgPath d) = some content) :
    ∃ cfg fs', load_nemo_config d s o fs = .ok (cfg, fs') ∧
      fs'.readFile (pathJoin basePath s ++ "/infer_manifest.json")
        = some (manifestMeta ++ "\n") ∧
      (fs'.files.filter (fun kv =>
        kv.1 == pathJoin basePath s ++ "/infer_manifest.json")).length = 1 ∧
      manifestMeta.data.all (fun c => c != '\n') = true ∧
      cfg.manifestFilepath = pathJoin basePath s ++ "/infer_manifest.json" := by
  set storageP := pathJoin basePath s with hst
  set m := pathJoin storageP "infer_manifest.json" with hm
  set outputP := pathJoin basePath o with hout
  set fs1 := if fs.pathExists storageP then fs else fs.mkdirParents storageP with h1
  set fs2 := fs1.writeFile m (manifestMeta ++ "\n") with h2
  set fs3 := if fs2.pathExists outputP then fs2 else fs2.mkdirParents outputP with h3
  have hme : storageP ++ "/infer_manifest.json" = m := by
    rw [hm, pathJoin_manifest]
  have hrun : load_nemo_config d s o fs
      = .ok (NemoConfig.mk content 0 m outputP, fs3) := by
    unfold load_nemo_config
    rw [h]
    rfl
  refine ⟨_, fs3, hrun, ?_, ?_, by decide, ?_⟩
  · rw [hme, h3]
    split
    · rw [h2]
      exact FS.readFile_writeFile_self fs1 m (manifestMeta ++ "\n")
    · rw [FS.readFile_mkdirParents, h2]
      exact FS.readFile_writeFile_self fs1 m (manifestMeta ++ "\n")
  · rw [hme, h3]
    split
    · rw [h2]
      exact FS.writeFile_unique fs1 m (manifestMeta ++ "\n")
    · rw [FS.mkdirParents_files, h2]
      exact FS.writeFile_unique fs1 m (manifestMeta ++ "\n")
  · rw [hme]

/-- Witness for C2 on a concrete filesystem holding only the "general"
profile asset. -/
theorem load_nemo_config_manifest_witness :
    ∃ cfg fs', load_nemo_config "general" "storage" "output"
        (FS.mk [] [(cfgPath "general", "profile")]) = .ok (cfg, fs') ∧
      fs'.readFile (pathJoin basePath "storage" ++ "/infer_manifest.json")
        = some (manifestMeta ++ "\n") ∧
      (fs'.files.filter (fun kv =>
        kv.1 == pathJoin basePath "storage" ++ "/infer_manifest.json")).length = 1 ∧
      manifestMeta.data.all (fun c => c != '\n') = true ∧
      cfg.manifestFilepath = pathJoin basePath "storage" ++ "/infer_manifest.json" :=
  load_nemo_config_manifest "general" "storage" "output" "profile"
    (FS.mk [] [(cfgPath "general", "profile")]) (by decide)

lemma load_nemo_config_fixedpoint (d s o content : String) (fsx : FS)
    (hr : fsx.readFile (cfgPath d) = some content)
    (hs : fsx.pathExists (pathJoin basePath s) = true)
    (ho : fsx.pathExists (pathJoin basePath o) = true)
    (hw : fsx.writeFile (pathJoin (pathJoin basePath s) "infer_manifest.json")
            (manifestMeta ++ "\n") = fsx) :
    load_nemo_config d s o fsx
      = .ok (NemoConfig.mk content 0
          (pathJoin (pathJoin basePath s) "infer_manifest.json")
          (pathJoin basePath o), fsx) := by
  unfold load_nemo_config
  rw [hr]
  simp only [loadCfg, hs, if_true, hw, ho]

/-- C8: `load_nemo_config` is idempotent: the second call with the same
arguments succeeds — the guarded directory creations are skipped rather
than re-attempted — returns the same configuration, and leaves the
filesystem (manifest included) exactly as the first call left it. -/
theorem load_nemo_config_idempotent (d s o content : String) (fs : FS)
    (h : fs.readFile (cfgPath d) = some content) :
    ∃ cfg fs', load_nemo_config d s o fs = .ok (cfg, fs') ∧
      load_nemo_config d s o fs' = .ok (cfg, fs') := by
  set storageP := pathJoin basePath s with hst
  set m := pathJoin storageP "infer_manifest.json" with hm
  set outputP := pathJoin basePath o with hout
  set fs1 := if fs.pathExists storageP then fs else fs.mkdirParents storageP with h1
  set fs2 := fs1.writeFile m (manifestMeta ++ "\n") with h2
  set fs3 := if fs2.pathExists outputP then fs2 else fs2.mkdirParents outputP with h3
  have hrun : load_nemo_config d s o fs
      = .ok (NemoConfig.mk content 0 m outputP, fs3) := by
    unfold load_nemo_config
    rw [h]
    rfl
  have hmcfg : cfgPath d ≠ m := by
    rw [hm, pathJoin_manifest]
    exact cfgPath_ne_manifest d storageP
  have hfs1_read : fs1.readFile (cfgPath d) = some content := by
    rw [h1]
    split
    · exact h
    · rw [FS.readFile_mkdirParents]
      exact h
  have hfs1_st : fs1.pathExists storageP = true := by
    rw [h1]
    split
    · assumption
    · exact FS.pathExists_mkdirParents_self fs storageP
  have hfs2_read : fs2.readFile (cfgPath d) = some content := by
    rw [h2, FS.readFile_writeFile_ne fs1 m (cfgPath d) (manifestMeta ++ "\n") hmcfg]
    exact hfs1_read
  have hfs2_st : fs2.pathExists storageP = true := by
    rw [h2]
    exact FS.pathExists_writeFile_mono fs1 m storageP (manifestMeta ++ "\n") hfs1_st
  have hfs3_read : fs3.readFile (cfgPath d) = some content := by
    rw [h3]
    split
    · exact hfs2_read
    · rw [FS.readFile_mkdirParents]
      exact hfs2_read
  have hfs3_st : fs3.pathExists storageP = true := by
    rw [h3]
    split
    · exact hfs2_st
    · exact FS.pathExists_mkdirParents_mono fs2 outputP storageP hfs2_st
  have hfs3_out : fs3.pathExists outputP = true := by
    rw [h3]
    split
    · assumption
    · exact FS.pathExists_mkdirParents_self fs2 outputP
  have hfs3_w : fs3.writeFile m (manifestMeta ++ "\n") = fs3 := by
    rw [h3]
    split
    · rw [h2]
      exact FS.writeFile_writeFile fs1 m (manifestMeta ++ "\n")
    · rw [h2]
      exact FS.writeFile_after_mkdirParents fs1 m (manifestMeta ++ "\n") outputP
  exact ⟨NemoConfig.mk content 0 m outputP, fs3, hrun,
    load_nemo_config_fixedpoint d s o content fs3 hfs3_read hfs3_st hfs3_out hfs3_w⟩

/-- Witness for C8 on a concrete filesystem holding only the "general"
profile asset. -/
theorem load_nemo_config_idempotent_witness :
    ∃ cfg fs', load_nemo_config "general" "storage" "output"
        (FS.mk [] [(cfgPath "general", "profile")]) = .ok (cfg, fs') ∧
      load_nemo_config "general" "storage" "output" fs' = .ok (cfg, fs') :=
  load_nemo_config_idempotent "general" "storage" "output" "profile"
    (FS.mk [] [(cfgPath "general", "profile")]) (by decide)

/-! ## Theorem for claim C3 -/

lemma sub_mul_floor_div_eq_fract (x b : ℚ) (hb : 0 < b) :
    x - b * ⌊x / b⌋ = b * Int.fract (x / b) := by
  have hbx : b * (x / b) = x := by field_simp
  rw [← Int.self_sub_floor, mul_sub, hbx]

/-- C3: for every timestamp `t ≥ 0` (milliseconds), `convert(t, "hms")`
returns the zero-padded string `HH:MM:SS.mmm` built from the
integer-floored hours, minutes, seconds and the floored
milliseconds-of-remainder, with `MM, SS < 60` and `mmm < 1000`, hours
unbounded, and re-deriving milliseconds from the four rendered fields
reproduces `t` within 1 ms. -/
theorem convert_timestamp_hms_format (t : ℚ) (ht : 0 ≤ t) :
    ∃ hh mm ss mmm : ℕ,
      convert_timestamp t "hms" = .ok (.inl
        (natPad 2 hh ++ ":" ++ natPad 2 mm ++ ":" ++ natPad 2 ss ++ "."
          ++ natPad 3 mmm)) ∧
      mm < 60 ∧ ss < 60 ∧ mmm < 1000 ∧
      ((hh : ℚ) * 3600000 + (mm : ℚ) * 60000 + (ss : ℚ) * 1000 + (mmm : ℚ)) ≤ t ∧
      t < ((hh : ℚ) * 3600000 + (mm : ℚ) * 60000 + (ss : ℚ) * 1000 + (mmm : ℚ))
        + 1 := by
  set H : ℤ := ⌊t / 1000 / 3600⌋ with hH
  set rem : ℚ := t / 1000 - 3600 * H with hrem
  set M : ℤ := ⌊rem / 60⌋ with hM
  set sec : ℚ := rem - 60 * M with hsec
  set S : ℤ := ⌊sec⌋ with hS
  set mmmZ : ℤ := ⌊(sec - S) * 1000⌋ with hmmmZ
  have hH0 : 0 ≤ H := by
    rw [hH]
    exact Int.floor_nonneg.mpr (by positivity)
  have hrem_eq : rem = 3600 * Int.fract (t / 1000 / 3600) := by
    rw [hrem, hH]
    exact sub_mul_floor_div_eq_fract (t / 1000) 3600 (by norm_num)
  have hrem0 : 0 ≤ rem := by
    rw [hrem_eq]
    exact mul_nonneg (by norm_num) (Int.fract_nonneg _)
  have hrem36 : rem < 3600 := by
    rw [hrem_eq]
    have := mul_lt_mul_of_pos_left (Int.fract_lt_one (t / 1000 / 3600))
      (by norm_num : (0:ℚ) < 3600)
    simpa using this
  have hM0 : 0 ≤ M := by
    rw [hM]
    exact Int.floor_nonneg.mpr (by positivity)
  have hM60 : M < 60 := by
    rw [hM]
    refine Int.floor_lt.mpr ?_
    push_cast
    rw [div_lt_iff₀ (by norm_num : (0:ℚ) < 60)]
    linarith
  have hsec_eq : sec = 60 * Int.fract (rem / 60) := by
    rw [hsec, hM]
    exact sub_mul_floor_div_eq_fract rem 60 (by norm_num)
  have hsec0 : 0 ≤ sec := by
    rw [hsec_eq]
    exact mul_nonneg (by norm_num) (Int.fract_nonneg _)
  have hsec60 : sec < 60 := by
    rw [hsec_eq]
    have := mul_lt_mul_of_pos_left (Int.fract_lt_one (rem / 60))
      (by norm_num : (0:ℚ) < 60)
    simpa using this
  have hS0 : 0 ≤ S := by
    rw [hS]
    exact Int.floor_nonneg.mpr hsec0
  have hS60 : S < 60 := by
    rw [hS]
    exact Int.floor_lt.mpr (by exact_mod_cast hsec60)
  have hfract_eq : sec - (S : ℚ) = Int.fract sec := by
    rw [hS]
    exact Int.self_sub_floor sec
  have hmz_eq : mmmZ = ⌊Int.fract sec * 1000⌋ := by
    rw [hmmmZ, hfract_eq]
  have hfr0 : 0 ≤ Int.fract sec := Int.fract_nonneg sec
  have hfr1 : Int.fract sec < 1 := Int.fract_lt_one sec
  have hm0 : 0 ≤ mmmZ := by
    rw [hmz_eq]
    exact Int.floor_nonneg.mpr (by positivity)
  have hm1000 : mmmZ < 1000 := by
    rw [hmz_eq]
    refine Int.floor_lt.mpr ?_
    push_cast
    nlinarith
  have hml : (mmmZ : ℚ) ≤ Int.fract sec * 1000 := by
    rw [hmz_eq]
    exact Int.floor_le _
  have hmu : Int.fract sec * 1000 < (mmmZ : ℚ) + 1 := by
    rw [hmz_eq]
    exact Int.lt_floor_add_one _
  have hdecomp : t = 3600000 * (H : ℚ) + 60000 * (M : ℚ) + 1000 * (S : ℚ)
      + 1000 * Int.fract sec := by
    rw [← hfract_eq, hsec, hrem]
    ring
  have hdisp : convert_timestamp t "hms" = .ok (.inl (_convert_ms_to_hms t)) := by
    simp [convert_timestamp]
  have hpadH : intPad 2 H = natPad 2 H.toNat := by
    unfold intPad
    rw [if_neg (not_lt.mpr hH0)]
  have hpadM : intPad 2 M = natPad 2 M.toNat := by
    unfold intPad
    rw [if_neg (not_lt.mpr hM0)]
  have hpyS : pyInt sec = S := by
    unfold pyInt
    rw [if_neg (not_lt.mpr hsec0), hS]
  have hpadS : intPad 2 (pyInt sec) = natPad 2 S.toNat := by
    rw [hpyS]
    unfold intPad
    rw [if_neg (not_lt.mpr hS0)]
  have hpadm : intPad 3 mmmZ = natPad 3 mmmZ.toNat := by
    unfold intPad
    rw [if_neg (not_lt.mpr hm0)]
  have hstr : _convert_ms_to_hms t
      = intPad 2 H ++ ":" ++ intPad 2 M ++ ":" ++ intPad 2 (pyInt sec) ++ "."
        ++ intPad 3 mmmZ := rfl
  have hcastH : ((H.toNat : ℕ) : ℚ) = (H : ℚ) := by
    exact_mod_cast Int.toNat_of_nonneg hH0
  have hcastM : ((M.toNat : ℕ) : ℚ) = (M : ℚ) := by
    exact_mod_cast Int.toNat_of_nonneg hM0
  have hcastS : ((S.toNat : ℕ) : ℚ) = (S : ℚ) := by
    exact_mod_cast Int.toNat_of_nonneg hS0
  have hcastm : ((mmmZ.toNat : ℕ) : ℚ) = (mmmZ : ℚ) := by
    exact_mod_cast Int.toNat_of_nonneg hm0
  refine ⟨H.toNat, M.toNat, S.toNat, mmmZ.toNat, ?_, ?_, ?_, ?_, ?_, ?_⟩
  · rw [hdisp, hstr, hpadH, hpadM, hpadS, hpadm]
  · omega
  · omega
  · omega
  · rw [hcastH, hcastM, hcastS, hcastm]
    linarith
  · rw [hcastH, hcastM, hcastS, hcastm]
    linarith

/-- Witness for C3 at the concrete timestamp 3661001 ms. -/
theorem convert_timestamp_hms_format_witness :
    ∃ hh mm ss mmm : ℕ,
      convert_timestamp 3661001 "hms" = .ok (.inl
        (natPad 2 hh ++ ":" ++ natPad 2 mm ++ ":" ++ natPad 2 ss ++ "."
          ++ natPad 3 mmm)) ∧
      mm < 60 ∧ ss < 60 ∧ mmm < 1000 ∧
      ((hh : ℚ) * 3600000 + (mm : ℚ) * 60000 + (ss : ℚ) * 1000 + (mmm : ℚ))
        ≤ 3661001 ∧
      (3661001 : ℚ) < ((hh : ℚ) * 3600000 + (mm : ℚ) * 60000 + (ss : ℚ) * 1000
        + (mmm : ℚ)) + 1 :=
  convert_timestamp_hms_format 3661001 (by norm_num)
